import Mathlib

/-!
Shallow embedding of `src/backend/content/models.py` (activist backend,
content app): the filename deriver `set_filename_to_uuid`, the
`post_delete` hook `delete_image_file`, and the declared record schemas
with their relational cascade behaviour, together with theorems settling
the specification's claims about them.

Python strings are embedded as Lean `String` (with `List Char` cores);
`str.lower` is modelled on the ASCII range, which agrees with Python on
every ASCII character.  Path functions follow CPython's `posixpath`
(the deployment platform of the Django backend).
-/

namespace Content

/-- Embedding of Python `s.rfind(c)` for a one-character needle on the
character list of `s`: index of the last occurrence of `c`, or `-1` when
`c` does not occur. -/
def rfind (l : List Char) (c : Char) : Int :=
  match l with
  | [] => -1
  | a :: as =>
    let r := rfind as c
    if 0 ≤ r then r + 1
    else if a = c then 0
    else -1

/-- Embedding of CPython `posixpath.splitext` (via `genericpath._splitext`
with `sep = '/'`, `extsep = '.'`): the extension starts at the last dot,
provided that dot lies after the last separator and some non-dot character
of the basename precedes it (so purely leading dots are not extensions). -/
def splitext (p : List Char) : List Char × List Char :=
  let sepIndex := rfind p '/'
  let dotIndex := rfind p '.'
  if sepIndex < dotIndex ∧
      (List.range p.length).any
        (fun i => decide (sepIndex < (i : Int)) && decide ((i : Int) < dotIndex)
          && decide (p.getD i '.' ≠ '.')) then
    (p.take dotIndex.toNat, p.drop dotIndex.toNat)
  else
    (p, [])

/-- Embedding of Python `str.lower` on one character, restricted to the
ASCII range (Python and this model agree on all ASCII input). -/
def pyLowerChar (c : Char) : Char :=
  if 'A' ≤ c ∧ c ≤ 'Z' then Char.ofNat (c.toNat + 32) else c

/-- Embedding of Python `str.lower` on a character list. -/
def pyLower (l : List Char) : List Char := l.map pyLowerChar

/-- Embedding of CPython `posixpath.join` for exactly two arguments:
an absolute second component replaces the first; otherwise a separator is
inserted unless the first component is empty or already ends in one. -/
def posixJoin (a b : List Char) : List Char :=
  if b.head? = some '/' then b
  else if a = [] ∨ a.getLast? = some '/' then a ++ b
  else a ++ '/' :: b

/-- Core of `set_filename_to_uuid` on character lists:
`ext = splitext(filename)[1]`, `new_filename = f"{instance.id}{ext.lower()}"`,
result `os.path.join("images/", new_filename)`. -/
def setFilenameCore (instanceId filename : List Char) : List Char :=
  let ext := (splitext filename).2
  let new_filename := instanceId ++ pyLower ext
  posixJoin "images/".data new_filename

/-- Embedding of `set_filename_to_uuid` from `content/models.py`, with the
model instance represented by the string form of its UUID (Python
interpolates `instance.id` into an f-string, which is `str(uuid)`). -/
def set_filename_to_uuid (instanceId filename : String) : String :=
  ⟨setFilenameCore instanceId.data filename.data⟩

/-- The extension `os.path.splitext(filename)[1]` of a filename, as a
string. -/
def extensionOf (filename : String) : String :=
  ⟨(splitext filename.data).2⟩

/-- Python `str.lower` on strings (ASCII range). -/
def pyLowerStr (s : String) : String := ⟨pyLower s.data⟩

/-- Character of the textual form of a UUID: lowercase hexadecimal digit or
hyphen, as produced by Python's `str(uuid.UUID(...))`. -/
def isUuidChar (c : Char) : Bool :=
  (('0' ≤ c && c ≤ '9') || ('a' ≤ c && c ≤ 'f') || c == '-')

/-- The string is the textual form of a record identifier (UUID):
every character is a lowercase hex digit or a hyphen. -/
def IsUuidRepr (s : String) : Prop :=
  s.data.all isUuidChar = true

instance (s : String) : Decidable (IsUuidRepr s) := by
  unfold IsUuidRepr; infer_instance

/-! ## The record schemas and their relational behaviour

Each Django model of `content/models.py` becomes a record structure.
`models.UUIDField(primary_key=True, default=uuid4, editable=False)` is a
128-bit identifier; timestamps are abstract `Nat` instants; `ForeignKey`
and `OneToOneField` columns hold the id of the referenced row;
`ManyToManyField` columns hold id lists.  Row deletion follows Django's
collector: deleting a row also deletes every row holding a foreign key
declared with `on_delete=models.CASCADE` that references it, and fires
the `post_delete` receivers for each deleted instance. -/

/-- 128-bit record identifier, per `models.UUIDField(primary_key=True,
default=uuid4, editable=False)`. -/
abbrev UUID : Type := Fin (2 ^ 128)

/-- Row of the `Discussion` table. -/
structure DiscussionRec where
  id : UUID
  created_by : UUID
  title : String
  category : String
  creation_date : Nat
  deletion_date : Option Nat
  tags : List UUID
deriving DecidableEq

/-- Row of the `DiscussionEntry` table; `discussion` is the
`ForeignKey("content.Discussion", on_delete=models.CASCADE)` column. -/
structure DiscussionEntryRec where
  id : UUID
  discussion : UUID
  created_by : UUID
  text : String
  creation_date : Nat
  last_updated : Nat
  deletion_date : Option Nat
deriving DecidableEq

/-- Row of the `Image` table; `file_object` is the stored file reference
held by the `ImageField` (the empty string models an absent file, matching
Python falsiness of an empty `FieldFile.name`). -/
structure ImageRec where
  id : UUID
  file_object : String
  creation_date : Nat
deriving DecidableEq

/-- Row of the `Location` table. -/
structure LocationRec where
  id : UUID
  lat : String
  lon : String
  bbox : Option (List String)
  display_name : String
deriving DecidableEq

/-- Row of the `Resource` table; `location` is the
`OneToOneField("content.Location", on_delete=models.CASCADE)` column. -/
structure ResourceRec where
  id : UUID
  created_by : UUID
  name : String
  description : String
  category : String
  location : UUID
  url : String
  is_private : Bool
  terms_checked : Bool
  creation_date : Nat
  last_updated : Nat
  tags : List UUID
  topics : List UUID
deriving DecidableEq

/-- The tables of the content app that the claims concern. -/
structure ContentDB where
  discussions : List DiscussionRec
  discussionEntries : List DiscussionEntryRec
  images : List ImageRec
  locations : List LocationRec
  resources : List ResourceRec
deriving DecidableEq

/-- Side-effect requests issued to external collaborators during a
deletion: a file-delete request to the storage collaborator, or a
re-persist (save) of an image row to the persistence collaborator. -/
inductive Effect where
  | storageDelete (ref : String)
  | saveRecord (img : ImageRec)
deriving DecidableEq

/-- Embedding of Django `FieldFile.delete(save=...)`: request removal of
the stored file from the storage collaborator, and re-persist the owning
record only when `save` is true. -/
def fieldFileDelete (ref : String) (owner : ImageRec) (save : Bool) : List Effect :=
  Effect.storageDelete ref :: (if save then [Effect.saveRecord owner] else [])

/-- Embedding of the `post_delete` receiver `delete_image_file`:
`if instance.file_object:` (a `FieldFile` is truthy exactly when its name
is non-empty) `instance.file_object.delete(save=False)`.  The result is
the list of effect requests the hook issues. -/
def delete_image_file (inst : ImageRec) : List Effect :=
  if inst.file_object ≠ "" then
    fieldFileDelete inst.file_object inst false
  else []

/-- Hard delete of a `Discussion` row.  `DiscussionEntry.discussion` is
declared `on_delete=models.CASCADE`, so the collector also deletes every
entry referencing the discussion. -/
def deleteDiscussion (db : ContentDB) (did : UUID) : ContentDB :=
  { db with
    discussions := db.discussions.filter (fun d => decide (d.id ≠ did)),
    discussionEntries := db.discussionEntries.filter (fun e => decide (e.discussion ≠ did)) }

/-- Hard delete of a `Resource` row.  No foreign key in this fragment
references `Resource`, so only the resource row itself is removed; in
particular its `Location` row is untouched (`on_delete=models.CASCADE` on
`Resource.location` fires when the *Location* is deleted, not the
Resource). -/
def deleteResource (db : ContentDB) (rid : UUID) : ContentDB :=
  { db with resources := db.resources.filter (fun r => decide (r.id ≠ rid)) }

/-- Hard delete of a `Location` row.  `Resource.location` is declared
`on_delete=models.CASCADE`, so the collector also deletes every resource
referencing the location. -/
def deleteLocation (db : ContentDB) (lid : UUID) : ContentDB :=
  { db with
    locations := db.locations.filter (fun l => decide (l.id ≠ lid)),
    resources := db.resources.filter (fun r => decide (r.location ≠ lid)) }

/-- Database plus the storage collaborator's stored file references. -/
structure SysState where
  db : ContentDB
  storedFiles : List String
deriving DecidableEq

/-- Interpretation of one effect request against the system state. -/
def applyEffect (s : SysState) (e : Effect) : SysState :=
  match e with
  | .storageDelete ref =>
      { s with storedFiles := s.storedFiles.filter (fun f => decide (f ≠ ref)) }
  | .saveRecord img =>
      { s with db := { s.db with
          images := s.db.images.filter (fun i => decide (i.id ≠ img.id)) ++ [img] } }

/-- Hard delete of an `Image` row: remove the row, then fire the
`post_delete` receiver `delete_image_file` for each deleted instance and
interpret the requested effects.  Returns the new state and the effect
requests issued by the hook. -/
def deleteImage (s : SysState) (iid : UUID) : SysState × List Effect :=
  let victims := s.db.images.filter (fun i => decide (i.id = iid))
  let s1 : SysState :=
    { s with db := { s.db with
        images := s.db.images.filter (fun i => decide (i.id ≠ iid)) } }
  let effs := (victims.map delete_image_file).flatten
  (effs.foldl applyEffect s1, effs)

/-- Creation of an `Image` row: the persistence collaborator inserts a row
whose primary key is the identifier supplied by the identifier source
(`default=uuid4`). -/
def createImage (db : ContentDB) (freshId : UUID) (fileRef : String) (now : Nat) :
    ContentDB :=
  { db with images := db.images ++ [⟨freshId, fileRef, now⟩] }

/-- Creation of a `Discussion` row with a freshly supplied identifier. -/
def createDiscussion (db : ContentDB) (freshId creator : UUID)
    (title category : String) (now : Nat) : ContentDB :=
  { db with discussions := db.discussions ++ [⟨freshId, creator, title, category, now, none, []⟩] }

/-- Primary keys are unique within each table. -/
def tableIdsUnique (db : ContentDB) : Prop :=
  (db.discussions.map (fun d => d.id)).Nodup ∧
  (db.discussionEntries.map (fun e => e.id)).Nodup ∧
  (db.images.map (fun i => i.id)).Nodup ∧
  (db.locations.map (fun l => l.id)).Nodup ∧
  (db.resources.map (fun r => r.id)).Nodup

instance (db : ContentDB) : Decidable (tableIdsUnique db) := by
  unfold tableIdsUnique
  infer_instance

/-- Does the effect address the storage collaborator (a file delete)? -/
def Effect.isStorageDelete : Effect → Bool
  | Effect.storageDelete _ => true
  | Effect.saveRecord _ => false

/-- One invocation of the filename deriver against an ambient system
state.  The Python function body reads only its two arguments and performs
no I/O or mutation, so its state-passing translation pairs the pure result
with the unchanged ambient state. -/
def setFilenameInvoke (s : SysState) (instanceId filename : String) :
    String × SysState :=
  (set_filename_to_uuid instanceId filename, s)

/-- Concrete identifiers for witnesses and counterexamples. -/
def uuidA : UUID := ⟨0, by norm_num⟩

/-- Second concrete identifier. -/
def uuidB : UUID := ⟨1, by norm_num⟩

/-- Third concrete identifier. -/
def uuidC : UUID := ⟨2, by norm_num⟩

/-- Fourth concrete identifier. -/
def uuidD : UUID := ⟨3, by norm_num⟩

/-- Example Location row. -/
def exLocation : LocationRec := ⟨uuidA, "52.52", "13.40", none, "Berlin"⟩

/-- Example Resource row referencing `exLocation`. -/
def exResource : ResourceRec :=
  ⟨uuidB, uuidC, "Community resource", "a description", "", uuidA,
    "https://example.org", true, false, 0, 0, [], []⟩

/-- Example database holding one resource and its location. -/
def exDB : ContentDB := ⟨[], [], [], [exLocation], [exResource]⟩

/-- Example Discussion row. -/
def exDiscussion : DiscussionRec := ⟨uuidA, uuidC, "a title", "", 0, none, []⟩

/-- Example entry belonging to `exDiscussion`. -/
def exEntry1 : DiscussionEntryRec := ⟨uuidB, uuidA, uuidC, "hello", 0, 0, none⟩

/-- Example entry belonging to a different discussion. -/
def exEntry2 : DiscussionEntryRec := ⟨uuidD, uuidC, uuidC, "elsewhere", 0, 0, none⟩

/-- Example database holding one discussion and two entries. -/
def exDiscussionDB : ContentDB := ⟨[exDiscussion], [exEntry1, exEntry2], [], [], []⟩

/-- Example image row with a stored file. -/
def exImageWithFile : ImageRec := ⟨uuidA, "images/a.jpg", 0⟩

/-- Example image row without a stored file. -/
def exImageNoFile : ImageRec := ⟨uuidB, "", 0⟩

/-- Example system state holding `exImageWithFile` and its stored file. -/
def exSys : SysState := ⟨⟨[], [], [exImageWithFile], [], []⟩, ["images/a.jpg"]⟩

-- Basic facts about `rfind`.

theorem rfind_ge_neg_one (l : List Char) (c : Char) : -1 ≤ rfind l c := by
  induction l with
  | nil => simp [rfind]
  | cons a as ih =>
    simp only [rfind]
    split
    · omega
    · split <;> omega

theorem rfind_lt_length (l : List Char) (c : Char) : rfind l c < l.length := by
  induction l with
  | nil => simp [rfind]
  | cons a as ih =>
    simp only [rfind, List.length_cons]
    split
    · push_cast; omega
    · split <;> [skip; skip] <;> (push_cast; omega)

theorem rfind_getD (l : List Char) (c d : Char) (h : 0 ≤ rfind l c) :
    l.getD (rfind l c).toNat d = c := by
  induction l with
  | nil => simp [rfind] at h
  | cons a as ih =>
    simp only [rfind] at h ⊢
    by_cases hr : 0 ≤ rfind as c
    · simp only [if_pos hr]
      have ht : (rfind as c + 1).toNat = (rfind as c).toNat + 1 := by omega
      rw [ht]
      simpa using ih hr
    · simp only [if_neg hr] at h ⊢
      by_cases ha : a = c
      · simp [ha]
      · simp [ha] at h

-- The extension is empty or starts with a dot.

theorem splitext_eq_ite (p : List Char) :
    splitext p =
      if rfind p '/' < rfind p '.' ∧
          (List.range p.length).any
            (fun i => decide (rfind p '/' < (i : Int)) && decide ((i : Int) < rfind p '.')
              && decide (p.getD i '.' ≠ '.')) then
        (p.take (rfind p '.').toNat, p.drop (rfind p '.').toNat)
      else
        (p, []) := rfl

theorem splitext_snd_shape (p : List Char) :
    (splitext p).2 = [] ∨ ∃ r, (splitext p).2 = '.' :: r := by
  rw [splitext_eq_ite]
  split
  · rename_i hcond
    obtain ⟨hlt, -⟩ := hcond
    right
    have hd0 : 0 ≤ rfind p '.' := by
      have := rfind_ge_neg_one p '/'
      omega
    have hdl : (rfind p '.').toNat < p.length := by
      have := rfind_lt_length p '.'
      omega
    have hget := rfind_getD p '.' '.' hd0
    have hcc : p[(rfind p '.').toNat] = '.' := by
      rw [← List.getD_eq_getElem p '.' hdl]
      exact hget
    refine ⟨p.drop ((rfind p '.').toNat + 1), ?_⟩
    show p.drop (rfind p '.').toNat = _
    rw [List.drop_eq_getElem_cons hdl, hcc]
  · left; rfl

-- Joining under "images/".

theorem posixJoin_images (b : List Char) (hb : b.head? ≠ some '/') :
    posixJoin "images/".data b = "images/".data ++ b := by
  unfold posixJoin
  rw [if_neg hb, if_pos]
  right
  decide

theorem isUuidChar_ne_slash (c : Char) (h : isUuidChar c = true) : c ≠ '/' := by
  intro hc
  subst hc
  simp [isUuidChar] at h

/-- The main derivation equation: for a UUID-form identifier the result is
exactly `"images/" ++ id ++ lower(ext)`. -/
theorem derive_eq (instanceId filename : String) (hid : IsUuidRepr instanceId) :
    set_filename_to_uuid instanceId filename
      = "images/" ++ instanceId ++ pyLowerStr (extensionOf filename) := by
  have hhead : (instanceId.data ++ pyLower (splitext filename.data).2).head? ≠ some '/' := by
    rcases splitext_snd_shape filename.data with hext | ⟨r, hext⟩
    · rw [hext]
      cases hi : instanceId.data with
      | nil => simp [pyLower]
      | cons c cs =>
        have hc : isUuidChar c = true := by
          have := hid
          unfold IsUuidRepr at this
          rw [hi] at this
          simp [List.all_cons] at this
          exact this.1
        simp only [pyLower, List.map_nil, List.append_nil, List.head?_cons]
        intro hcontra
        exact isUuidChar_ne_slash c hc (by injection hcontra)
    · rw [hext]
      cases hi : instanceId.data with
      | nil =>
        simp [pyLower, pyLowerChar]
      | cons c cs =>
        have hc : isUuidChar c = true := by
          have := hid
          unfold IsUuidRepr at this
          rw [hi] at this
          simp [List.all_cons] at this
          exact this.1
        simp only [List.cons_append, List.head?_cons]
        intro hcontra
        exact isUuidChar_ne_slash c hc (by injection hcontra)
  apply String.ext
  show setFilenameCore instanceId.data filename.data = _
  unfold setFilenameCore
  rw [posixJoin_images _ hhead]
  simp only [String.data_append]
  unfold pyLowerStr extensionOf
  simp [List.append_assoc]

-- Helper lemmas shared by the claim theorems.

theorem string_append_empty (s : String) : s ++ "" = s := by
  apply String.ext
  show s.data ++ ([] : List Char) = s.data
  simp

theorem nodup_map_filter {α β : Type} (f : α → β) (p : α → Bool) (l : List α)
    (h : (l.map f).Nodup) : ((l.filter p).map f).Nodup :=
  List.Nodup.sublist (List.Sublist.map f (List.filter_sublist l)) h

theorem delete_image_file_storage_only (img : ImageRec) (e : Effect)
    (he : e ∈ delete_image_file img) : e.isStorageDelete = true := by
  unfold delete_image_file fieldFileDelete at he
  by_cases h : img.file_object = ""
  · simp [h] at he
  · simp [h] at he
    subst he
    rfl

theorem foldl_applyEffect_db (effs : List Effect) (s : SysState)
    (h : ∀ e ∈ effs, e.isStorageDelete = true) :
    (effs.foldl applyEffect s).db = s.db := by
  induction effs generalizing s with
  | nil => rfl
  | cons e es ih =>
    have he : e.isStorageDelete = true := h e (by simp)
    have hdb : (applyEffect s e).db = s.db := by
      cases e with
      | storageDelete ref => rfl
      | saveRecord img => simp [Effect.isStorageDelete] at he
    rw [List.foldl_cons, ih _ (fun x hx => h x (by simp [hx])), hdb]

-- Claim theorems.

/-- C1: for every record identifier `id` (textual UUID form) and every
non-empty filename `f` with extension `E`, the deriver returns exactly
`"images/" + id + lowercase(E)`. -/
theorem claim_C1_derive_shape (instanceId filename : String)
    (hid : IsUuidRepr instanceId) (hne : filename ≠ "") :
    set_filename_to_uuid instanceId filename
      = "images/" ++ instanceId ++ pyLowerStr (extensionOf filename) :=
  derive_eq instanceId filename hid

/-- Witness for C1 at the uppercase-extension example `"PHOTO.JPG"`:
the derived path lowercases `.JPG` to `.jpg`. -/
theorem claim_C1_witness :
    IsUuidRepr "a1b2c3d4" ∧ ("PHOTO.JPG" : String) ≠ "" ∧
      (set_filename_to_uuid "a1b2c3d4" "PHOTO.JPG"
          = "images/" ++ "a1b2c3d4" ++ pyLowerStr (extensionOf "PHOTO.JPG")) ∧
      pyLowerStr (extensionOf "PHOTO.JPG") = ".jpg" :=
  ⟨by decide, by decide,
    claim_C1_derive_shape "a1b2c3d4" "PHOTO.JPG" (by decide) (by decide),
    by decide⟩

/-- C4: for every identifier and non-empty filename containing no
extension, the deriver returns exactly `"images/" + id`, with no suffix. -/
theorem claim_C4_no_extension (instanceId filename : String)
    (hid : IsUuidRepr instanceId) (hne : filename ≠ "")
    (hext : extensionOf filename = "") :
    set_filename_to_uuid instanceId filename = "images/" ++ instanceId := by
  rw [derive_eq instanceId filename hid, hext]
  show "images/" ++ instanceId ++ pyLowerStr "" = _
  have h0 : pyLowerStr "" = "" := rfl
  rw [h0, string_append_empty]

/-- Witness for C4 at the extensionless filename `"README"`. -/
theorem claim_C4_witness :
    IsUuidRepr "a1b2c3d4" ∧ ("README" : String) ≠ "" ∧ extensionOf "README" = "" ∧
      set_filename_to_uuid "a1b2c3d4" "README" = "images/" ++ "a1b2c3d4" :=
  ⟨by decide, by decide, by decide,
    claim_C4_no_extension "a1b2c3d4" "README" (by decide) (by decide) (by decide)⟩

/-- C9: only the final dot-suffix of a multi-part extension survives
(`"archive.tar.GZ"` derives to `images/<id>.gz`), and a lone leading-dot
name such as `".bashrc"` counts as having no extension. -/
theorem claim_C9_splitext_edge_cases (instanceId : String)
    (hid : IsUuidRepr instanceId) :
    set_filename_to_uuid instanceId "archive.tar.GZ"
        = "images/" ++ instanceId ++ ".gz"
    ∧ set_filename_to_uuid instanceId ".bashrc" = "images/" ++ instanceId := by
  constructor
  · rw [derive_eq _ _ hid]
    have h1 : pyLowerStr (extensionOf "archive.tar.GZ") = ".gz" := by decide
    rw [h1]
  · rw [derive_eq _ _ hid]
    have h1 : pyLowerStr (extensionOf ".bashrc") = "" := by decide
    rw [h1, string_append_empty]

/-- Witness for C9 at a concrete identifier. -/
theorem claim_C9_witness :
    IsUuidRepr "a1b2c3d4" ∧
      (set_filename_to_uuid "a1b2c3d4" "archive.tar.GZ"
          = "images/" ++ "a1b2c3d4" ++ ".gz"
        ∧ set_filename_to_uuid "a1b2c3d4" ".bashrc" = "images/" ++ "a1b2c3d4") :=
  ⟨by decide, claim_C9_splitext_edge_cases "a1b2c3d4" (by decide)⟩

/-- C10: the derived path does not depend on the base name: any two
filenames with the same extension derive to the same path for the same
identifier. -/
theorem claim_C10_basename_irrelevant (instanceId f1 f2 : String)
    (hext : extensionOf f1 = extensionOf f2) :
    set_filename_to_uuid instanceId f1 = set_filename_to_uuid instanceId f2 := by
  apply String.ext
  show setFilenameCore instanceId.data f1.data = setFilenameCore instanceId.data f2.data
  unfold setFilenameCore
  have h : (splitext f1.data).2 = (splitext f2.data).2 := congrArg String.data hext
  rw [h]

/-- Witness for C10: two different base names with the same extension. -/
theorem claim_C10_witness :
    extensionOf "holiday-photo.JPG" = extensionOf "x.JPG" ∧
      set_filename_to_uuid "a1b2c3d4" "holiday-photo.JPG"
        = set_filename_to_uuid "a1b2c3d4" "x.JPG" :=
  ⟨by decide, claim_C10_basename_irrelevant "a1b2c3d4" _ _ (by decide)⟩

/-- C5: the deriver is pure and deterministic: identical inputs give
identical outputs regardless of the ambient state, an invocation leaves
the ambient state unchanged (no side effects), and repeating the
invocation on the resulting state reproduces the same output. -/
theorem claim_C5_pure_deterministic (s1 s2 : SysState)
    (id1 id2 f1 f2 : String) (hi : id1 = id2) (hf : f1 = f2) :
    (setFilenameInvoke s1 id1 f1).1 = (setFilenameInvoke s2 id2 f2).1
    ∧ (setFilenameInvoke s1 id1 f1).2 = s1
    ∧ (setFilenameInvoke s1 id1 f1).1
        = (setFilenameInvoke (setFilenameInvoke s1 id1 f1).2 id1 f1).1 := by
  subst hi
  subst hf
  exact ⟨rfl, rfl, rfl⟩

/-- Witness for C5 at concrete states and inputs. -/
theorem claim_C5_witness :
    ("a1b2c3d4" : String) = "a1b2c3d4" ∧ ("PHOTO.JPG" : String) = "PHOTO.JPG" ∧
      ((setFilenameInvoke exSys "a1b2c3d4" "PHOTO.JPG").1
          = (setFilenameInvoke ⟨exDB, []⟩ "a1b2c3d4" "PHOTO.JPG").1
        ∧ (setFilenameInvoke exSys "a1b2c3d4" "PHOTO.JPG").2 = exSys
        ∧ (setFilenameInvoke exSys "a1b2c3d4" "PHOTO.JPG").1
            = (setFilenameInvoke (setFilenameInvoke exSys "a1b2c3d4" "PHOTO.JPG").2
                "a1b2c3d4" "PHOTO.JPG").1) :=
  ⟨rfl, rfl,
    claim_C5_pure_deterministic exSys ⟨exDB, []⟩ "a1b2c3d4" "a1b2c3d4"
      "PHOTO.JPG" "PHOTO.JPG" rfl rfl⟩

/-- C2 counterexample: in a database with one Resource referencing one
Location, deleting the Resource removes the resource row but leaves its
Location in the locations table — the cascade declared on
`Resource.location` does not run from Resource to Location. -/
theorem claim_C2_counterexample :
    exResource ∈ exDB.resources
    ∧ exResource.location = exLocation.id
    ∧ exResource ∉ (deleteResource exDB exResource.id).resources
    ∧ exLocation ∈ (deleteResource exDB exResource.id).locations := by
  decide

/-- C2 amended: `on_delete=models.CASCADE` on `Resource.location` cascades
from Location to Resource: deleting a Location removes it together with
every Resource referencing it, while deleting a Resource leaves the
locations table unchanged (the Location survives, now unreferenced). -/
theorem claim_C2_amended_cascade (db : ContentDB) (lid rid : UUID) :
    (∀ r : ResourceRec,
        r ∈ (deleteLocation db lid).resources
          ↔ r ∈ db.resources ∧ r.location ≠ lid)
    ∧ (∀ l : LocationRec,
        l ∈ (deleteLocation db lid).locations
          ↔ l ∈ db.locations ∧ l.id ≠ lid)
    ∧ (deleteResource db rid).locations = db.locations := by
  refine ⟨fun r => ?_, fun l => ?_, rfl⟩ <;>
    simp [deleteLocation, List.mem_filter]

/-- C3: the deletion-reaction hook issues exactly one file-delete request,
for the record's stored reference, if and only if the file reference is
non-empty; with an empty file reference it issues zero requests. -/
theorem claim_C3_hook_requests (img : ImageRec) :
    (delete_image_file img = [Effect.storageDelete img.file_object]
        ↔ img.file_object ≠ "")
    ∧ (delete_image_file img = [] ↔ img.file_object = "") := by
  unfold delete_image_file fieldFileDelete
  by_cases h : img.file_object = "" <;> simp [h]

/-- C6: hard-deleting a Discussion removes the discussion row and exactly
the DiscussionEntry rows belonging to it (the `on_delete=models.CASCADE`
on `DiscussionEntry.discussion`). -/
theorem claim_C6_discussion_cascade (db : ContentDB) (did : UUID) :
    (∀ e : DiscussionEntryRec,
        e ∈ (deleteDiscussion db did).discussionEntries
          ↔ e ∈ db.discussionEntries ∧ e.discussion ≠ did)
    ∧ (∀ d : DiscussionRec,
        d ∈ (deleteDiscussion db did).discussions
          ↔ d ∈ db.discussions ∧ d.id ≠ did) := by
  constructor <;> intro x <;> simp [deleteDiscussion, List.mem_filter]

/-- C7: every effect the Image deletion hook issues is a storage
file-delete (never a re-save of the deleted record), and after the
deletion every table other than the images table is exactly as before,
while the images table has lost exactly the deleted row. -/
theorem claim_C7_hook_frame (s : SysState) (iid : UUID) :
    ((deleteImage s iid).2.all Effect.isStorageDelete = true)
    ∧ (deleteImage s iid).1.db.discussions = s.db.discussions
    ∧ (deleteImage s iid).1.db.discussionEntries = s.db.discussionEntries
    ∧ (deleteImage s iid).1.db.locations = s.db.locations
    ∧ (deleteImage s iid).1.db.resources = s.db.resources
    ∧ (deleteImage s iid).1.db.images
        = s.db.images.filter (fun i => decide (i.id ≠ iid)) := by
  have hall : ∀ e ∈ (deleteImage s iid).2, e.isStorageDelete = true := by
    intro e he
    have hm : e ∈ ((s.db.images.filter
        (fun i => decide (i.id = iid))).map delete_image_file).flatten := he
    rw [List.mem_flatten] at hm
    obtain ⟨l, hl, hel⟩ := hm
    rw [List.mem_map] at hl
    obtain ⟨img, -, rfl⟩ := hl
    exact delete_image_file_storage_only img e hel
  have hdb : (deleteImage s iid).1.db
      = { s.db with
          images := s.db.images.filter (fun i => decide (i.id ≠ iid)) } :=
    foldl_applyEffect_db _ _ hall
  refine ⟨List.all_eq_true.mpr hall, ?_, ?_, ?_, ?_, ?_⟩ <;> rw [hdb]

/-- C8: identifiers are 128-bit values; creation with a freshly supplied
identifier preserves per-table uniqueness and installs exactly that
identifier; every delete operation of the fragment preserves per-table
uniqueness and keeps each surviving row literally unchanged (so no
operation ever changes a record's id after creation). -/
theorem claim_C8_id_invariants (db : ContentDB) (freshI freshD creator : UUID)
    (fileRef title category : String) (now : Nat) (did lid rid : UUID)
    (hu : tableIdsUnique db)
    (hfi : freshI ∉ db.images.map (fun i => i.id))
    (hfd : freshD ∉ db.discussions.map (fun d => d.id)) :
    Fintype.card UUID = 2 ^ 128
    ∧ tableIdsUnique (createImage db freshI fileRef now)
    ∧ tableIdsUnique (createDiscussion db freshD creator title category now)
    ∧ (createImage db freshI fileRef now).images.map (fun i => i.id)
        = db.images.map (fun i => i.id) ++ [freshI]
    ∧ tableIdsUnique (deleteDiscussion db did)
    ∧ tableIdsUnique (deleteLocation db lid)
    ∧ tableIdsUnique (deleteResource db rid)
    ∧ (∀ e : DiscussionEntryRec,
        e ∈ (deleteDiscussion db did).discussionEntries → e ∈ db.discussionEntries)
    ∧ (∀ d : DiscussionRec,
        d ∈ (deleteDiscussion db did).discussions → d ∈ db.discussions)
    ∧ (∀ r : ResourceRec,
        r ∈ (deleteLocation db lid).resources → r ∈ db.resources)
    ∧ (∀ l : LocationRec,
        l ∈ (deleteLocation db lid).locations → l ∈ db.locations)
    ∧ (∀ r : ResourceRec,
        r ∈ (deleteResource db rid).resources → r ∈ db.resources) := by
  obtain ⟨h1, h2, h3, h4, h5⟩ := hu
  refine ⟨Fintype.card_fin (2 ^ 128), ?_, ?_, ?_, ?_, ?_, ?_,
    ?_, ?_, ?_, ?_, ?_⟩
  · exact ⟨h1, h2, by simp [createImage, List.nodup_append, h3, hfi], h4, h5⟩
  · exact ⟨by simp [createDiscussion, List.nodup_append, h1, hfd], h2, h3, h4, h5⟩
  · simp [createImage]
  · exact ⟨nodup_map_filter _ _ _ h1, nodup_map_filter _ _ _ h2, h3, h4, h5⟩
  · exact ⟨h1, h2, h3, nodup_map_filter _ _ _ h4, nodup_map_filter _ _ _ h5⟩
  · exact ⟨h1, h2, h3, h4, nodup_map_filter _ _ _ h5⟩
  · intro e he
    exact (List.mem_filter.mp he).1
  · intro d hd
    exact (List.mem_filter.mp hd).1
  · intro r hr
    exact (List.mem_filter.mp hr).1
  · intro l hl
    exact (List.mem_filter.mp hl).1
  · intro r hr
    exact (List.mem_filter.mp hr).1

/-- Witness for C8: a concrete database with unique identifiers and fresh
identifiers for the created rows. -/
theorem claim_C8_witness :
    tableIdsUnique exDB
    ∧ uuidC ∉ exDB.images.map (fun i => i.id)
    ∧ uuidD ∉ exDB.discussions.map (fun d => d.id)
    ∧ tableIdsUnique (createImage exDB uuidC "images/x.png" 5) := by
  refine ⟨by decide, by decide, by decide, ?_⟩
  exact (claim_C8_id_invariants exDB uuidC uuidD uuidA "images/x.png" "a title"
    "" 5 uuidA uuidA uuidB (by decide) (by decide) (by decide)).2.1

end Content
